import Mathlib

/-!
Shallow embedding of `ping_graph.py` (vitovt/ping_graph).

The program is a continuous ping prober: a scheduler loop dispatches one
probe thread per elapsed interval, each probe records one numeric result
(milliseconds, with `dead_timeout` doubling as the loss sentinel) into a
shared dict keyed by probe id, and `update_stats` computes aggregate
statistics over a snapshot of the completed results.

Modelling conventions:
- Python floats are modelled as rationals (ℚ); every numeric value the
  claims touch is exactly representable.
- `np.std` returns the square root of the population variance; to stay in
  ℚ we model its square (`var_time`).  `np.std l = 0` iff `var_time l = 0`
  and both are functions of the same list, which is all the claims need.
- The regex `TIME_RE` and `re.search` are modelled by an explicit
  maximal-munch matcher over the character list; for this pattern
  (disjoint character classes around each starred class) greedy matching
  without backtracking coincides with Python regex semantics, and the
  search tries every start position left to right exactly as `re.search`.
- Thread interleaving is modelled by an event trace: `tick` events are
  iterations of the main scheduler loop, `complete` events are the final
  commit (`results[probe_id] = measured`) of a probe thread.
-/

/-- Python regex class `\s` (ASCII whitespace as produced by ping output). -/
def pyIsSpace (c : Char) : Bool :=
  c = ' ' || c = '\t' || c = '\n' || c = '\r' || c = '\x0b' || c = '\x0c'

/-- Numeric value of a digit string, most significant digit first. -/
def digitsVal (ds : List Char) : ℕ :=
  ds.foldl (fun n c => 10 * n + (c.toNat - '0'.toNat)) 0

/-- Attempt to match `TIME_RE = time(?P<cmp>[=<])\s*(?P<val>\d+(?:\.\d+)?)\s*ms`
(case-insensitive) at the start of the character list, returning the value
of the `val` group as a rational.  Maximal munch on `\s*`, `\d+` and the
optional fraction group; for this pattern backtracking can never turn a
local failure into a match, because the character after a shortened
starred run can never begin the next pattern element. -/
def matchTimeAt (cs : List Char) : Option ℚ :=
  match cs with
  | t :: i :: m :: e :: cmp :: rest =>
    if t.toLower = 't' ∧ i.toLower = 'i' ∧ m.toLower = 'm' ∧ e.toLower = 'e'
        ∧ (cmp = '=' ∨ cmp = '<') then
      let rest1 := rest.dropWhile pyIsSpace
      let intDs := rest1.takeWhile Char.isDigit
      if intDs.isEmpty then none
      else
        let rest2 := rest1.dropWhile Char.isDigit
        let fracAndRest : List Char × List Char :=
          match rest2 with
          | '.' :: r3 =>
            let f := r3.takeWhile Char.isDigit
            if f.isEmpty then ([], rest2) else (f, r3.dropWhile Char.isDigit)
          | _ => ([], rest2)
        let fracDs := fracAndRest.1
        let rest4 := fracAndRest.2.dropWhile pyIsSpace
        match rest4 with
        | m2 :: s2 :: _ =>
          if m2.toLower = 'm' ∧ s2.toLower = 's' then
            some (mkRat (digitsVal intDs * 10 ^ fracDs.length + digitsVal fracDs) (10 ^ fracDs.length))
          else none
        | _ => none
    else none
  | _ => none

/-- Leftmost search, as `re.search`: try every start position in order. -/
def searchTime : List Char → Option ℚ
  | [] => none
  | c :: cs =>
    match matchTimeAt (c :: cs) with
    | some v => some v
    | none => searchTime cs

/-- Model of `parse_ping_time`: parse RTT in ms from ping output,
returning `none` when the pattern matches nowhere. -/
def parse_ping_time (s : String) : Option ℚ :=
  searchTime s.toList

/-- Raw result of one ping subprocess invocation, as observed by
`run_single_probe`: normal completion with an exit code and captured
output, our hard deadline expiring (`subprocess.TimeoutExpired`), or any
exception escaping the subprocess machinery. -/
inductive RawResult where
  | completed (rc : ℤ) (out err : String)
  | timedOut (out err : String)
  | crashed (msg : String)
deriving Repr, DecidableEq

/-- Model of `run_single_probe`: the single value committed to
`results[probe_id]`.  Mirrors the branch structure of the source: on the
deadline path `rc` is forced to `124` and that branch records
`dead_timeout`; an unparseable success records `dead_timeout`; a parsed
success records the parsed delay (the `delay > timeout_ms` comparison in
the source only prints a message and does not change the recorded value);
any non-zero exit and any exception record `dead_timeout`. -/
def run_single_probe (raw : RawResult) (timeout_ms dead_timeout : ℚ) : ℚ :=
  match raw with
  | .completed rc out _err =>
    if rc = 0 then
      match parse_ping_time out with
      | none => dead_timeout
      | some delay =>
        if delay > timeout_ms then delay else delay
    else if rc = 124 then dead_timeout
    else dead_timeout
  | .timedOut _ _ => dead_timeout
  | .crashed _ => dead_timeout

/-- Outcome variants of the specification, used to state claims that
speak of `Success`, `Slow`, `Unparseable`, `Expired`, `Failed`. -/
inductive OutcomeKind where
  | success
  | slow
  | unparseable
  | expired
  | failed
deriving Repr, DecidableEq

/-- Classification of a raw result following exactly the branch structure
of `run_single_probe` (with the `delay > timeout_ms` test deciding
slow vs success, as in the printed messages). -/
def classifyRaw (raw : RawResult) (timeout_ms : ℚ) : OutcomeKind :=
  match raw with
  | .completed rc out _err =>
    if rc = 0 then
      match parse_ping_time out with
      | none => .unparseable
      | some delay =>
        if delay > timeout_ms then .slow else .success
    else if rc = 124 then .expired
    else .failed
  | .timedOut _ _ => .expired
  | .crashed _ => .failed

/-- Aggregate statistics computed by `update_stats`.  `var_time` is the
square of the `np.std` value displayed by the source. -/
structure PingStats where
  avg_time : ℚ
  min_time : ℚ
  max_time : ℚ
  var_time : ℚ
  jitter : ℚ
  pct_gt_timeout : ℚ
  pct_lost : ℚ
  gt_timeout : ℕ
  lost : ℕ
  max_seq : ℕ
deriving Repr, DecidableEq

/-- Arithmetic mean, `np.mean` on a nonempty list. -/
def listMean (l : List ℚ) : ℚ := l.sum / l.length

/-- Minimum of a nonempty list, `np.min`; 0 on `[]` (the source guards
the empty case before calling it). -/
def listMin : List ℚ → ℚ
  | [] => 0
  | x :: xs => xs.foldl min x

/-- Maximum of a nonempty list, `np.max`; 0 on `[]`. -/
def listMax : List ℚ → ℚ
  | [] => 0
  | x :: xs => xs.foldl max x

/-- The list comprehension `[t for t in completed_times if t != dead_timeout]`. -/
def validTimes (completed_times : List ℚ) (dead_timeout : ℚ) : List ℚ :=
  completed_times.filter (fun t => decide (t ≠ dead_timeout))

/-- The list `[abs(valid_times[i] - valid_times[i-1]) for i in range(1, len(valid_times))]`. -/
def consecutiveAbsDiffs (l : List ℚ) : List ℚ :=
  (l.zip l.tail).map (fun p => |p.2 - p.1|)

/-- Loop computing `max_seq`, the longest consecutive run of entries that
are at least `timeout` or equal to the `dead_timeout` sentinel. -/
def maxSeqGo (timeout dead_timeout : ℚ) : List ℚ → ℕ → ℕ → ℕ
  | [], _cur, mx => mx
  | t :: ts, cur, mx =>
    if (timeout ≤ t ∧ t ≠ dead_timeout) ∨ t = dead_timeout then
      maxSeqGo timeout dead_timeout ts (cur + 1) (max mx (cur + 1))
    else
      maxSeqGo timeout dead_timeout ts 0 mx

/-- Model of `update_stats` (the numeric part feeding the stats text):
statistics of one snapshot `completed_times` (values in probe-id order),
given the classification threshold `timeout` and the `dead_timeout`
sentinel. -/
def update_stats (completed_times : List ℚ) (timeout dead_timeout : ℚ) : PingStats :=
  if completed_times.isEmpty then
    ⟨0, 0, 0, 0, 0, 0, 0, 0, 0, 0⟩
  else
    let valid_times := validTimes completed_times dead_timeout
    let avg_time := if valid_times.isEmpty then 0 else listMean valid_times
    let min_time := if valid_times.isEmpty then 0 else listMin valid_times
    let var_time := if valid_times.isEmpty then 0
      else listMean (valid_times.map (fun x => (x - listMean valid_times) ^ 2))
    let jitter := if 1 < valid_times.length then listMean (consecutiveAbsDiffs valid_times) else 0
    let max_time := if valid_times.isEmpty then 0 else listMax valid_times
    let gt_timeout := (completed_times.filter (fun t => decide (timeout ≤ t ∧ t ≠ dead_timeout))).length
    let pct_gt_timeout := ((gt_timeout : ℚ) / completed_times.length) * 100
    let lost := (completed_times.filter (fun t => decide (t = dead_timeout))).length
    let pct_lost := ((lost : ℚ) / completed_times.length) * 100
    let max_seq := maxSeqGo timeout dead_timeout completed_times 0 0
    ⟨avg_time, min_time, max_time, var_time, jitter, pct_gt_timeout, pct_lost,
      gt_timeout, lost, max_seq⟩

/-- Model of the inner catch-up loop
`while now >= next_send and not stop_event.is_set(): ...` of the main
scheduler: returns the list of probe ids dispatched during this outer
iteration (in dispatch order) and the final `next_send`.  The loop body
increments `probe_id`, starts a probe thread for the new id, and advances
`next_send` by `interval`.  Termination requires `0 < interval`, which
holds for every meaningful configuration (`args.interval`). -/
def innerLoop (interval : ℚ) (hi : 0 < interval) (now : ℚ) (stop : Bool) (next_send : ℚ)
    (probe_id : ℕ) : List ℕ × ℚ :=
  if h : next_send ≤ now ∧ stop = false then
    let r := innerLoop interval hi now stop (next_send + interval) (probe_id + 1)
    ((probe_id + 1) :: r.1, r.2)
  else
    ([], next_send)
termination_by (⌊(now - next_send) / interval⌋ + 1).toNat
decreasing_by
  have hne : interval ≠ 0 := ne_of_gt hi
  have hdiv : (now - (next_send + interval)) / interval = (now - next_send) / interval - 1 := by
    field_simp
    ring
  rw [hdiv, Int.floor_sub_one]
  have ha : 0 ≤ ⌊(now - next_send) / interval⌋ :=
    Int.floor_nonneg.mpr (div_nonneg (by linarith [h.1]) hi.le)
  omega

/-- Number of probes one outer iteration dispatches: zero when stopped or
not yet due, otherwise one per elapsed interval including the current
one. -/
def catchUpCount (stop : Bool) (now next_send interval : ℚ) : ℕ :=
  if stop then 0
  else if now < next_send then 0
  else (⌊(now - next_send) / interval⌋ + 1).toNat


/-- Shared mutable state of the session: the scheduler counters
(`probe_id`, `next_send`) and the lock-guarded `results` dict and
`inflight` set.  `results` is kept as an association list in insertion
order; `inflight` as a list of ids. -/
structure SysState where
  probe_id : ℕ
  next_send : ℚ
  results : List (ℕ × ℚ)
  inflight : List ℕ
deriving Repr, DecidableEq

/-- Interleaving events: `tick now stop` is one iteration of the main
loop (reading the monotonic clock as `now` and the stop flag as `stop`);
`complete id raw` is the final lock-guarded commit of the probe thread
for `id` (`results[probe_id] = measured; inflight.discard(probe_id)`). -/
inductive Event where
  | tick (now : ℚ) (stop : Bool)
  | complete (id : ℕ) (raw : RawResult)
deriving Repr

/-- One step of the interleaved system.  A `tick` runs the catch-up loop,
adding the dispatched ids to the in-flight set (`run_single_probe` adds
the id on thread start); a `complete` for an id whose thread is running
commits exactly one result and removes the id from the in-flight set. -/
def step (interval : ℚ) (hi : 0 < interval) (timeout dead_timeout : ℚ) (s : SysState) :
    Event → SysState
  | .tick now stop =>
    let r := innerLoop interval hi now stop s.next_send s.probe_id
    { probe_id := s.probe_id + r.1.length
      next_send := r.2
      results := s.results
      inflight := s.inflight ++ r.1 }
  | .complete id raw =>
    if id ∈ s.inflight then
      { probe_id := s.probe_id
        next_send := s.next_send
        results := s.results ++ [(id, run_single_probe raw timeout dead_timeout)]
        inflight := s.inflight.erase id }
    else s

/-- Run a trace of events from a state. -/
def runEvents (interval : ℚ) (hi : 0 < interval) (timeout dead_timeout : ℚ) (s : SysState)
    (es : List Event) : SysState :=
  es.foldl (step interval hi timeout dead_timeout) s

/-- Session start: `probe_id = 0`, `next_send = tme.monotonic()`, empty
results and in-flight set. -/
def initState (t0 : ℚ) : SysState :=
  ⟨0, t0, [], []⟩

/-- Insert into a sorted list, for the model of `sorted(...)`. -/
def insertSorted (x : ℕ) : List ℕ → List ℕ
  | [] => [x]
  | y :: ys => if x ≤ y then x :: y :: ys else y :: insertSorted x ys

/-- Insertion sort modelling Python `sorted`. -/
def sortKeys (l : List ℕ) : List ℕ :=
  l.foldr insertSorted []

/-- Model of the snapshot block of the main loop:
`done_ids = sorted(results.keys()); times_snapshot = [results[i] for i in done_ids]`,
presented as the sorted list of `(sequence_number, latency)` pairs. -/
def snapshotPairs (results : List (ℕ × ℚ)) : List (ℕ × ℚ) :=
  (sortKeys (results.map Prod.fst)).map (fun i => (i, ((results.lookup i).getD 0)))

/-- Ids owned by the session: keys of `results` plus the in-flight set. -/
def trackedIds (s : SysState) : List ℕ :=
  s.results.map Prod.fst ++ s.inflight

/-- Session invariant: no id is tracked twice, and every tracked id lies
in `{1..probe_id}`. -/
def goodState (s : SysState) : Prop :=
  (trackedIds s).Nodup ∧ ∀ id ∈ trackedIds s, 1 ≤ id ∧ id ≤ s.probe_id

/-- Python truthiness of `resolved_host` (`if not resolved_host`). -/
def pyFalsy : Option String → Bool
  | none => true
  | some s => s.isEmpty

/-- Model of the startup section of `__main__`: the `dead_timeout` range
check, then hostname resolution, then the session loop.  `sys.exit(msg)`
is modelled as `Except.error msg` (it terminates the process with a
non-zero status before any probe is dispatched). -/
def mainStartup (interval : ℚ) (hi : 0 < interval) (timeout dead_timeout : ℚ)
    (resolved_host : Option String) (t0 : ℚ) (es : List Event) : Except String SysState :=
  if dead_timeout > 10000 ∨ dead_timeout < timeout then
    .error "Dead timeout (-D) value out of range. Exiting."
  else if pyFalsy resolved_host then
    .error "Could not resolve host. Exiting."
  else
    .ok (runEvents interval hi timeout dead_timeout (initState t0) es)

/-- Number of raw results classified `Expired` or `Failed`. -/
def expiredOrFailedCount (raws : List RawResult) (timeout : ℚ) : ℕ :=
  (raws.filter (fun r =>
    decide (classifyRaw r timeout = .expired ∨ classifyRaw r timeout = .failed))).length

/-- Floor of the catch-up quotient drops by exactly one when `next_send`
advances by one interval. -/
theorem floor_quot_shift (now ns i : ℚ) (hi : 0 < i) :
    ⌊(now - (ns + i)) / i⌋ = ⌊(now - ns) / i⌋ - 1 := by
  have hne : i ≠ 0 := ne_of_gt hi
  have hdiv : (now - (ns + i)) / i = (now - ns) / i - 1 := by
    field_simp
    ring
  rw [hdiv, Int.floor_sub_one]

/-- Closed form of the catch-up loop: it dispatches the consecutive ids
`probe_id+1, ..., probe_id+k` with `k = catchUpCount`, and advances
`next_send` by exactly `k` intervals. -/
theorem innerLoop_closed (interval : ℚ) (hi : 0 < interval) (now : ℚ) (stop : Bool)
    (next_send : ℚ) (probe_id : ℕ) :
    innerLoop interval hi now stop next_send probe_id =
      (List.range' (probe_id + 1) (catchUpCount stop now next_send interval),
        next_send + (catchUpCount stop now next_send interval : ℚ) * interval) := by
  induction next_send, probe_id using innerLoop.induct interval hi now stop with
  | case1 ns pid h ih =>
    obtain ⟨hle, hstop⟩ := h
    subst hstop
    have ha : 0 ≤ ⌊(now - ns) / interval⌋ :=
      Int.floor_nonneg.mpr (div_nonneg (by linarith) hi.le)
    have hk : catchUpCount false now ns interval
        = catchUpCount false now (ns + interval) interval + 1 := by
      by_cases hlt : now < ns + interval
      · have ha1 : ⌊(now - ns) / interval⌋ < 1 :=
          Int.floor_lt.mpr (by push_cast; exact (div_lt_one hi).mpr (by linarith))
        simp [catchUpCount, not_lt.mpr hle, hlt]
        omega
      · simp [catchUpCount, not_lt.mpr hle, hlt, floor_quot_shift now ns interval hi]
        omega
    rw [innerLoop, dif_pos ⟨hle, rfl⟩]
    simp only [ih, hk]
    refine Prod.ext ?_ ?_
    · show (pid + 1) :: List.range' (pid + 1 + 1) _ = List.range' (pid + 1) _
      rw [List.range'_succ]
    · show ns + interval + _ = ns + _
      push_cast
      ring
  | case2 ns pid h =>
    have hc : catchUpCount stop now ns interval = 0 := by
      by_cases hs : stop = true
      · simp [catchUpCount, hs]
      · have hsf : stop = false := by
          revert hs
          cases stop <;> simp
        have hlt : now < ns := by
          by_contra hcon
          exact h ⟨not_lt.mp hcon, hsf⟩
        simp [catchUpCount, hsf, hlt]
    rw [innerLoop, dif_neg h, hc]
    simp

example : parse_ping_time "64 bytes from 1.1.1.1: icmp_seq=1 ttl=57 time=12.3 ms" = some (mkRat 123 10) := by
  decide

example : parse_ping_time "time<1ms" = some 1 := by decide

example : parse_ping_time "TIME=42 MS" = some 42 := by decide

example : parse_ping_time "no rtt here" = none := by decide

example : (update_stats [10, 20, 500, 15] 150 500).lost = 1 := by decide

example : (update_stats [10, 20, 500, 15] 150 500).gt_timeout = 0 := by decide

example : (update_stats [10, 20, 500, 15] 150 500).max_seq = 1 := by decide

/-- One step preserves the session invariant. -/
theorem step_good (interval : ℚ) (hi : 0 < interval) (timeout dead_timeout : ℚ)
    (s : SysState) (e : Event) (hg : goodState s) :
    goodState (step interval hi timeout dead_timeout s e) := by
  obtain ⟨hnd, hbd⟩ := hg
  cases e with
  | tick now stop =>
    have hids := innerLoop_closed interval hi now stop s.next_send s.probe_id
    simp only [step, hids]
    constructor
    · show (s.results.map Prod.fst ++ (s.inflight ++ List.range' (s.probe_id + 1) _)).Nodup
      rw [← List.append_assoc]
      refine List.Nodup.append hnd (List.nodup_range' _ _) ?_
      rw [List.disjoint_left]
      intro a ha hmem
      have h1 := (hbd a ha).2
      have h2 := (List.mem_range'_1.mp hmem).1
      omega
    · intro id hid
      show 1 ≤ id ∧ id ≤ s.probe_id + _
      rw [trackedIds] at hid
      simp only [← List.append_assoc] at hid
      have hlen : (List.range' (s.probe_id + 1)
          (catchUpCount stop now s.next_send interval)).length
          = catchUpCount stop now s.next_send interval :=
        List.length_range' _ _ _
      rcases List.mem_append.mp hid with h | h
      · have hb := hbd id h
        omega
      · have hb := List.mem_range'_1.mp h
        omega
  | complete id raw =>
    simp only [step]
    by_cases hin : id ∈ s.inflight
    · rw [if_pos hin]
      have hperm : (trackedIds s).Perm
          ((s.results ++ [(id, run_single_probe raw timeout dead_timeout)]).map Prod.fst
            ++ s.inflight.erase id) := by
        rw [List.map_append, List.append_assoc]
        exact List.Perm.append_left _ (List.perm_cons_erase hin)
      constructor
      · exact hnd.perm hperm
      · intro x hx
        exact hbd x (hperm.mem_iff.mpr hx)
    · rw [if_neg hin]
      exact ⟨hnd, hbd⟩

/-- A whole trace preserves the session invariant. -/
theorem runEvents_good (interval : ℚ) (hi : 0 < interval) (timeout dead_timeout : ℚ)
    (es : List Event) (s : SysState) (hg : goodState s) :
    goodState (runEvents interval hi timeout dead_timeout s es) := by
  induction es generalizing s with
  | nil => exact hg
  | cons e es ih =>
    exact ih _ (step_good interval hi timeout dead_timeout s e hg)

/-- The initial state satisfies the invariant. -/
theorem initState_good (t0 : ℚ) : goodState (initState t0) := by
  constructor
  · show (List.Nodup [])
    exact List.nodup_nil
  · intro id hid
    cases hid

/-- Ticks never touch the results dict. -/
theorem runEvents_results_const (interval : ℚ) (hi : 0 < interval)
    (timeout dead_timeout : ℚ) (es : List Event) (s : SysState)
    (hticks : ∀ e ∈ es, ∃ now stop, e = .tick now stop) :
    (runEvents interval hi timeout dead_timeout s es).results = s.results := by
  induction es generalizing s with
  | nil => rfl
  | cons e es ih =>
    obtain ⟨now, stop, rfl⟩ := hticks e (List.mem_cons_self e es)
    have h2 : ∀ e ∈ es, ∃ now stop, e = Event.tick now stop :=
      fun e he => hticks e (List.mem_cons_of_mem _ he)
    rw [runEvents, List.foldl_cons]
    exact ih _ h2

/-- Once the stop flag reads true at every tick, the probe counter is
frozen. -/
theorem runEvents_pid_const (interval : ℚ) (hi : 0 < interval)
    (timeout dead_timeout : ℚ) (es : List Event) (s : SysState)
    (hstop : ∀ now stop, Event.tick now stop ∈ es → stop = true) :
    (runEvents interval hi timeout dead_timeout s es).probe_id = s.probe_id := by
  induction es generalizing s with
  | nil => rfl
  | cons e es ih =>
    have h2 : ∀ now stop, Event.tick now stop ∈ es → stop = true :=
      fun now stop hmem => hstop now stop (List.mem_cons_of_mem _ hmem)
    rw [runEvents, List.foldl_cons]
    have hstep : (step interval hi timeout dead_timeout s e).probe_id = s.probe_id := by
      cases e with
      | tick now stop =>
        have := hstop now stop (List.mem_cons_self _ _)
        subst this
        simp [step, innerLoop_closed, catchUpCount]
      | complete id raw =>
        by_cases hin : id ∈ s.inflight <;> simp [step, hin]
    exact (ih _ h2).trans hstep

/-- Unfolding of `update_stats` on a nonempty snapshot. -/
theorem update_stats_nonempty (l : List ℚ) (t d : ℚ) (h : l.isEmpty = false) :
    update_stats l t d =
      ⟨(if (validTimes l d).isEmpty then 0 else listMean (validTimes l d)),
        (if (validTimes l d).isEmpty then 0 else listMin (validTimes l d)),
        (if (validTimes l d).isEmpty then 0 else listMax (validTimes l d)),
        (if (validTimes l d).isEmpty then 0
          else listMean ((validTimes l d).map (fun x => (x - listMean (validTimes l d)) ^ 2))),
        (if 1 < (validTimes l d).length then listMean (consecutiveAbsDiffs (validTimes l d)) else 0),
        ((l.filter (fun x => decide (t ≤ x ∧ x ≠ d))).length : ℚ) / l.length * 100,
        ((l.filter (fun x => decide (x = d))).length : ℚ) / l.length * 100,
        (l.filter (fun x => decide (t ≤ x ∧ x ≠ d))).length,
        (l.filter (fun x => decide (x = d))).length,
        maxSeqGo t d l 0 0⟩ := by
  simp only [update_stats, h, Bool.false_eq_true, if_false]

/-- `re.search` returns no match exactly when no start position matches. -/
theorem searchTime_eq_none_iff (cs : List Char) :
    searchTime cs = none ↔ ∀ n, matchTimeAt (cs.drop n) = none := by
  induction cs with
  | nil =>
    simp only [searchTime, List.drop_nil, true_iff]
    intro n
    rfl
  | cons c cs ih =>
    constructor
    · intro h n
      rw [searchTime] at h
      cases hm : matchTimeAt (c :: cs) with
      | some v => rw [hm] at h; cases h
      | none =>
        rw [hm] at h
        cases n with
        | zero => exact hm
        | succ n => exact (ih.mp h) n
    · intro h
      rw [searchTime]
      have h0 := h 0
      rw [List.drop_zero] at h0
      rw [h0]
      exact ih.mpr (fun n => h (n + 1))

/-- C5: the latency parser recognizes both the `time=` and `time<` forms
case-insensitively with an optional decimal part and returns the matched
numeric value in both cases (`time=12.3 ms` yields 12.3; `time<1ms`
yields 1), and returns no value for any text containing no match (no
start position matches the pattern). -/
theorem C5_latency_pattern (s : String) :
    parse_ping_time "time=12.3 ms" = some (123 / 10)
    ∧ parse_ping_time "time<1ms" = some 1
    ∧ parse_ping_time "TIME=5.25 MS" = some (21 / 4)
    ∧ parse_ping_time "Time<2 Ms" = some 2
    ∧ (parse_ping_time s = none ↔ ∀ n, matchTimeAt (s.toList.drop n) = none) := by
  refine ⟨?_, by decide, ?_, by decide, searchTime_eq_none_iff s.toList⟩
  · have h : parse_ping_time "time=12.3 ms" = some (mkRat 123 10) := by decide
    rw [h, Rat.mkRat_eq_div]
    norm_num
  · have h : parse_ping_time "TIME=5.25 MS" = some (mkRat 525 100) := by decide
    rw [h, Rat.mkRat_eq_div]
    norm_num

/-- C1: the catch-up loop dispatches the consecutive sequence numbers
`probe_id+1 .. probe_id+k`, advances `next_send` by exactly one interval
per dispatch, with `k = 0` when not yet due and otherwise
`k = floor((now - next_send)/interval) + 1`; if the loop starts at
`next_send = t0 + probe_id * interval` then after the iteration the total
number of dispatched probes is `floor((now - t0)/interval) + 1` (one per
interval of elapsed time); concretely, at interval 100 ms a loop resuming
350 ms after the due time fires the four probes 1,2,3,4 rather than only
one. -/
theorem C1_scheduler_cadence (interval : ℚ) (hi : 0 < interval) (now next_send t0 : ℚ)
    (probe_id : ℕ) :
    (innerLoop interval hi now false next_send probe_id).1
        = List.range' (probe_id + 1) (catchUpCount false now next_send interval)
    ∧ (innerLoop interval hi now false next_send probe_id).2
        = next_send + (catchUpCount false now next_send interval : ℚ) * interval
    ∧ (now < next_send → catchUpCount false now next_send interval = 0)
    ∧ (next_send ≤ now →
        (catchUpCount false now next_send interval : ℤ)
          = ⌊(now - next_send) / interval⌋ + 1)
    ∧ (next_send = t0 + (probe_id : ℚ) * interval → next_send ≤ now →
        ((probe_id : ℤ) + ((innerLoop interval hi now false next_send probe_id).1.length : ℤ))
          = ⌊(now - t0) / interval⌋ + 1)
    ∧ (innerLoop (1 / 10) (by norm_num) (35 / 100) false 0 0).1 = [1, 2, 3, 4] := by
  have hcast : ∀ ns : ℚ, ns ≤ now →
      (catchUpCount false now ns interval : ℤ) = ⌊(now - ns) / interval⌋ + 1 := by
    intro ns hle
    have ha : 0 ≤ ⌊(now - ns) / interval⌋ :=
      Int.floor_nonneg.mpr (div_nonneg (by linarith) hi.le)
    simp only [catchUpCount, Bool.false_eq_true, if_false, not_lt.mpr hle, if_neg]
    omega
  refine ⟨?_, ?_, ?_, hcast next_send, ?_, ?_⟩
  · rw [innerLoop_closed]
  · rw [innerLoop_closed]
  · intro h
    simp [catchUpCount, h]
  · intro heq hle
    have hlen : ((innerLoop interval hi now false next_send probe_id).1.length : ℤ)
        = (catchUpCount false now next_send interval : ℤ) := by
      rw [innerLoop_closed]
      simp [List.length_range']
    rw [hlen, hcast next_send hle]
    have hfl : (now - next_send) / interval = (now - t0) / interval - (probe_id : ℤ) := by
      subst heq
      push_cast
      field_simp
      ring
    rw [hfl, Int.floor_sub_int]
    ring
  · have hc : catchUpCount false (35 / 100) 0 (1 / 10) = 4 := by
      have h2 : ⌊((35 : ℚ) / 100 - 0) / (1 / 10)⌋ = 3 := by
        rw [show ((35 : ℚ) / 100 - 0) / (1 / 10) = 7 / 2 by norm_num]
        rw [Int.floor_eq_iff]
        push_cast
        norm_num
      unfold catchUpCount
      rw [if_neg (by decide : ¬(false = true)), if_neg (by norm_num : ¬ (35 : ℚ) / 100 < 0), h2]
      decide
    rw [innerLoop_closed]
    rw [hc]
    decide

/-- Witness for C1 at a concrete instance (interval 1, clock 5). -/
theorem C1_scheduler_cadence_witness :
    (0 : ℚ) < 1
    ∧ (innerLoop (1 / 10) (by norm_num) (35 / 100) false 0 0).1 = [1, 2, 3, 4] :=
  ⟨by norm_num, (C1_scheduler_cadence 1 (by norm_num) 5 0 0 0).2.2.2.2.2⟩

/-- C2: every dispatched probe task records exactly one outcome for its
sequence number — in particular the exception branch still records the
deadline value — and the recorded sequence numbers are always a
duplicate-free subset of `{1..n}` where `n` is the number of probes
dispatched so far. -/
theorem C2_recorded_ids_wellformed (interval : ℚ) (hi : 0 < interval)
    (timeout dead_timeout t0 : ℚ) (es : List Event) :
    ((runEvents interval hi timeout dead_timeout (initState t0) es).results.map Prod.fst).Nodup
    ∧ (∀ id ∈ (runEvents interval hi timeout dead_timeout (initState t0) es).results.map Prod.fst,
        1 ≤ id ∧ id ≤ (runEvents interval hi timeout dead_timeout (initState t0) es).probe_id)
    ∧ (∀ msg, run_single_probe (.crashed msg) timeout dead_timeout = dead_timeout) := by
  have hg := runEvents_good interval hi timeout dead_timeout es (initState t0) (initState_good t0)
  obtain ⟨hnd, hbd⟩ := hg
  refine ⟨?_, ?_, fun msg => rfl⟩
  · exact (List.nodup_append.mp hnd).1
  · intro id hid
    exact hbd id (List.mem_append_left _ hid)

/-- Witness for C2 on a trace that dispatches and completes one probe
whose mechanism raised an exception. -/
theorem C2_recorded_ids_wellformed_witness :
    (0 : ℚ) < 1
    ∧ ((runEvents 1 (by norm_num) 150 500 (initState 0)
        [.tick 1 false, .complete 1 (.crashed "boom")]).results.map Prod.fst).Nodup :=
  ⟨by norm_num,
    (C2_recorded_ids_wellformed 1 (by norm_num) 150 500 0
      [.tick 1 false, .complete 1 (.crashed "boom")]).1⟩

/-- C8: two snapshots of the result store with no record in between (any
number of scheduler iterations may pass) yield the same sorted list of
(sequence number, latency) pairs. -/
theorem C8_snapshot_idempotent (interval : ℚ) (hi : 0 < interval)
    (timeout dead_timeout : ℚ) (s : SysState) (es : List Event)
    (hticks : ∀ e ∈ es, ∃ now stop, e = .tick now stop) :
    snapshotPairs ((runEvents interval hi timeout dead_timeout s es).results)
      = snapshotPairs s.results := by
  rw [runEvents_results_const interval hi timeout dead_timeout es s hticks]

/-- Witness for C8 on a one-tick trace from a store holding two results. -/
theorem C8_snapshot_idempotent_witness :
    (0 : ℚ) < 1
    ∧ snapshotPairs ((runEvents 1 (by norm_num) 150 500 ⟨2, 0, [(2, 20), (1, 10)], []⟩
        [.tick 3 false]).results)
      = snapshotPairs (SysState.mk 2 0 [(2, 20), (1, 10)] []).results := by
  refine ⟨by norm_num, C8_snapshot_idempotent 1 (by norm_num) 150 500 _ _ ?_⟩
  intro e he
  rw [List.mem_singleton] at he
  exact ⟨3, false, he⟩

/-- C9: once the stop signal is set, no new sequence number is ever
dispatched: on any trace whose ticks all read the stop flag as true the
probe counter is unchanged (completions of in-flight probes may still
occur), and the inner catch-up loop returns immediately when the stop
flag is set. -/
theorem C9_no_dispatch_after_stop (interval : ℚ) (hi : 0 < interval)
    (timeout dead_timeout : ℚ) (s : SysState) (es : List Event)
    (hstop : ∀ now stop, Event.tick now stop ∈ es → stop = true) :
    (runEvents interval hi timeout dead_timeout s es).probe_id = s.probe_id
    ∧ ∀ now ns pid, innerLoop interval hi now true ns pid = ([], ns) := by
  refine ⟨runEvents_pid_const interval hi timeout dead_timeout es s hstop, ?_⟩
  intro now ns pid
  rw [innerLoop_closed]
  simp [catchUpCount]

/-- Witness for C9: a stopped trace with a late completion leaves the
probe counter at its pre-stop value. -/
theorem C9_no_dispatch_after_stop_witness :
    (0 : ℚ) < 1
    ∧ (runEvents 1 (by norm_num) 150 500 ⟨7, 0, [], [7]⟩
        [.tick 9 true, .complete 7 (.timedOut "" ""), .tick 10 true]).probe_id
      = (SysState.mk 7 0 [] [7]).probe_id := by
  refine ⟨by norm_num, (C9_no_dispatch_after_stop 1 (by norm_num) 150 500 _ _ ?_).1⟩
  intro now stop h
  rcases List.mem_cons.mp h with h1 | h
  · cases h1
    rfl
  rcases List.mem_cons.mp h with h1 | h
  · cases h1
  rcases List.mem_cons.mp h with h1 | h
  · cases h1
    rfl
  cases h

/-- C10: given a resolver that never returns an empty address string, the
process exits with a non-zero status before any probe is dispatched
exactly when `dead_timeout` lies outside `[timeout, 10000]` or hostname
resolution fails; an early exit does not depend on the event trace (no
probe runs), and the boundary values `dead_timeout = timeout` and
`dead_timeout = 10000` are accepted. -/
theorem C10_startup_validation (interval : ℚ) (hi : 0 < interval)
    (timeout dead_timeout : ℚ) (resolved_host : Option String) (t0 : ℚ) (es : List Event)
    (hres : ∀ a, resolved_host = some a → a ≠ "") :
    ((∃ msg, mainStartup interval hi timeout dead_timeout resolved_host t0 es = .error msg)
        ↔ (dead_timeout > 10000 ∨ dead_timeout < timeout ∨ resolved_host = none))
    ∧ (∀ msg, mainStartup interval hi timeout dead_timeout resolved_host t0 es = .error msg →
        ∀ es2, mainStartup interval hi timeout dead_timeout resolved_host t0 es2 = .error msg)
    ∧ (dead_timeout = timeout → dead_timeout ≤ 10000 → resolved_host ≠ none →
        ∃ st, mainStartup interval hi timeout dead_timeout resolved_host t0 es = .ok st)
    ∧ (dead_timeout = 10000 → timeout ≤ 10000 → resolved_host ≠ none →
        ∃ st, mainStartup interval hi timeout dead_timeout resolved_host t0 es = .ok st) := by
  have hfalsy : pyFalsy resolved_host = true ↔ resolved_host = none := by
    cases hr : resolved_host with
    | none => simp [pyFalsy]
    | some a =>
      simp only [pyFalsy]
      constructor
      · intro hc
        exact absurd ((String.isEmpty_iff a).mp hc) (hres a hr)
      · intro hc
        cases hc
  have hnotfalsy : resolved_host ≠ none → ¬(pyFalsy resolved_host = true) := by
    intro h3 hp
    exact h3 (hfalsy.mp hp)
  refine ⟨⟨?_, ?_⟩, ?_, ?_, ?_⟩
  · rintro ⟨msg, hmsg⟩
    by_contra hcon
    push_neg at hcon
    obtain ⟨h1, h2, h3⟩ := hcon
    have hrf : ¬(dead_timeout > 10000 ∨ dead_timeout < timeout) := by
      rintro (hx | hx)
      · exact absurd hx (not_lt.mpr h1)
      · exact absurd hx (not_lt.mpr h2)
    rw [mainStartup, if_neg hrf, if_neg (hnotfalsy h3)] at hmsg
    cases hmsg
  · intro h
    rcases h with h | h | h
    · exact ⟨_, by rw [mainStartup, if_pos (Or.inl h)]⟩
    · exact ⟨_, by rw [mainStartup, if_pos (Or.inr h)]⟩
    · have hp : pyFalsy resolved_host = true := hfalsy.mpr h
      by_cases hrf : dead_timeout > 10000 ∨ dead_timeout < timeout
      · exact ⟨_, by rw [mainStartup, if_pos hrf]⟩
      · exact ⟨_, by rw [mainStartup, if_neg hrf, if_pos hp]⟩
  · intro msg hmsg es2
    by_cases hrf : dead_timeout > 10000 ∨ dead_timeout < timeout
    · rw [mainStartup, if_pos hrf] at hmsg
      rw [mainStartup, if_pos hrf]
      exact hmsg
    · by_cases hp : pyFalsy resolved_host = true
      · rw [mainStartup, if_neg hrf, if_pos hp] at hmsg
        rw [mainStartup, if_neg hrf, if_pos hp]
        exact hmsg
      · rw [mainStartup, if_neg hrf, if_neg hp] at hmsg
        cases hmsg
  · intro h1 h2 h3
    have hrf : ¬(dead_timeout > 10000 ∨ dead_timeout < timeout) := by
      rintro (hx | hx)
      · exact absurd hx (not_lt.mpr h2)
      · rw [h1] at hx
        exact absurd hx (lt_irrefl timeout)
    exact ⟨_, by rw [mainStartup, if_neg hrf, if_neg (hnotfalsy h3)]⟩
  · intro h1 h2 h3
    have hrf : ¬(dead_timeout > 10000 ∨ dead_timeout < timeout) := by
      rintro (hx | hx)
      · rw [h1] at hx
        exact absurd hx (lt_irrefl 10000)
      · rw [h1] at hx
        exact absurd hx (not_lt.mpr h2)
    exact ⟨_, by rw [mainStartup, if_neg hrf, if_neg (hnotfalsy h3)]⟩

/-- Witness for C10: the boundary configuration `dead_timeout = timeout`
with a resolvable host starts the session. -/
theorem C10_startup_validation_witness :
    (∀ a, (some "192.0.2.1" : Option String) = some a → a ≠ "")
    ∧ ∃ st, mainStartup 1 (by norm_num) 150 150 (some "192.0.2.1") 0 [] = .ok st := by
  have hres : ∀ a, (some "192.0.2.1" : Option String) = some a → a ≠ "" := by
    intro a ha
    cases ha
    decide
  exact ⟨hres,
    (C10_startup_validation 1 (by norm_num) 150 150 (some "192.0.2.1") 0 [] hres).2.2.1
      rfl (by norm_num) (by simp)⟩

/-- Counterexample to C7 as stated: the snapshot `[500]` (one probe lost
at `dead_timeout = 500`) carries no valid latency, yet the lost
percentage is 100, not 0. -/
theorem C7_counterexample :
    validTimes [(500 : ℚ)] 500 = []
    ∧ (update_stats [(500 : ℚ)] 150 500).pct_lost = 100
    ∧ (100 : ℚ) ≠ 0 := by
  refine ⟨by decide, ?_, by norm_num⟩
  rw [update_stats_nonempty [(500 : ℚ)] 150 500 (by decide)]
  have h1 : (List.filter (fun x => decide (x = (500 : ℚ))) [(500 : ℚ)]).length = 1 := by decide
  show ((List.filter (fun x => decide (x = (500 : ℚ))) [(500 : ℚ)]).length : ℚ)
      / ([(500 : ℚ)].length : ℚ) * 100 = 100
  rw [h1]
  norm_num

/-- C7 amended: an empty snapshot yields all-zero metrics including both
percentages; a nonempty snapshot with no valid (non-sentinel) latency
still yields zero mean/min/max/variance/jitter, but the percentages are
computed over the completed outcomes — in particular the lost percentage
is 100 when every outcome equals the sentinel. -/
theorem C7_empty_and_sentinel_stats (l : List ℚ) (t d : ℚ) :
    update_stats [] t d = ⟨0, 0, 0, 0, 0, 0, 0, 0, 0, 0⟩
    ∧ (validTimes l d = [] →
        (update_stats l t d).avg_time = 0
        ∧ (update_stats l t d).min_time = 0
        ∧ (update_stats l t d).max_time = 0
        ∧ (update_stats l t d).var_time = 0
        ∧ (update_stats l t d).jitter = 0)
    ∧ (l ≠ [] → (∀ x ∈ l, x = d) → (update_stats l t d).pct_lost = 100) := by
  refine ⟨rfl, ?_, ?_⟩
  · intro hv
    cases hl : l.isEmpty with
    | true =>
      rw [List.isEmpty_iff] at hl
      subst hl
      exact ⟨rfl, rfl, rfl, rfl, rfl⟩
    | false =>
      rw [update_stats_nonempty l t d hl]
      rw [hv]
      exact ⟨rfl, rfl, rfl, rfl, rfl⟩
  · intro hne hall
    have hl : l.isEmpty = false := by
      cases l with
      | nil => exact absurd rfl hne
      | cons a as => rfl
    rw [update_stats_nonempty l t d hl]
    have hfilter : l.filter (fun x => decide (x = d)) = l := by
      apply List.filter_eq_self.mpr
      intro a ha
      exact decide_eq_true (hall a ha)
    show ((l.filter (fun x => decide (x = d))).length : ℚ) / (l.length : ℚ) * 100 = 100
    rw [hfilter]
    have hlen : (0 : ℚ) < l.length := by
      cases l with
      | nil => exact absurd rfl hne
      | cons a as =>
        have : 0 < (a :: as).length := Nat.succ_pos _
        exact_mod_cast this
    field_simp

/-- Witness for C7 amended, on the all-sentinel snapshot `[500]`. -/
theorem C7_empty_and_sentinel_stats_witness :
    validTimes [(500 : ℚ)] 500 = []
    ∧ (update_stats [(500 : ℚ)] 150 500).avg_time = 0
    ∧ (update_stats [(500 : ℚ)] 150 500).pct_lost = 100 := by
  have h := C7_empty_and_sentinel_stats [(500 : ℚ)] 150 500
  refine ⟨by decide, (h.2.1 (by decide)).1, h.2.2 (by decide) ?_⟩
  intro x hx
  rw [List.mem_singleton] at hx
  exact hx

/-- C6: a genuinely parsed successful reply whose latency equals
`dead_timeout` is indistinguishable from a loss: it is recorded as the
sentinel value, counted as lost (100 percent on its own snapshot), and
excluded from the valid-latency series feeding mean/min/max/variance and
jitter; such an input exists (`time=500 ms` parses to the default
deadline 500). -/
theorem C6_sentinel_overload (out : String) (timeout dead : ℚ)
    (hparse : parse_ping_time out = some dead) :
    run_single_probe (.completed 0 out "") timeout dead = dead
    ∧ validTimes [run_single_probe (.completed 0 out "") timeout dead] dead = []
    ∧ (update_stats [run_single_probe (.completed 0 out "") timeout dead] timeout dead).lost = 1
    ∧ (update_stats [run_single_probe (.completed 0 out "") timeout dead] timeout dead).pct_lost
        = 100
    ∧ (update_stats [run_single_probe (.completed 0 out "") timeout dead] timeout dead).avg_time
        = 0
    ∧ (update_stats [run_single_probe (.completed 0 out "") timeout dead] timeout dead).min_time
        = 0
    ∧ (update_stats [run_single_probe (.completed 0 out "") timeout dead] timeout dead).max_time
        = 0
    ∧ (update_stats [run_single_probe (.completed 0 out "") timeout dead] timeout dead).var_time
        = 0
    ∧ (update_stats [run_single_probe (.completed 0 out "") timeout dead] timeout dead).jitter
        = 0
    ∧ parse_ping_time "time=500 ms" = some 500 := by
  have hrun : run_single_probe (.completed 0 out "") timeout dead = dead := by
    simp [run_single_probe, hparse]
  rw [hrun]
  have hvt : validTimes [dead] dead = [] := by
    simp [validTimes]
  have hfl : (List.filter (fun x => decide (x = dead)) [dead]).length = 1 := by
    simp
  rw [update_stats_nonempty [dead] timeout dead rfl]
  refine ⟨rfl, hvt, ?_, ?_, ?_, ?_, ?_, ?_, ?_, by decide⟩
  · show (List.filter (fun x => decide (x = dead)) [dead]).length = 1
    exact hfl
  · show ((List.filter (fun x => decide (x = dead)) [dead]).length : ℚ)
        / ([dead].length : ℚ) * 100 = 100
    rw [hfl]
    norm_num
  all_goals
    simp only [hvt]
  all_goals
    rfl

/-- Witness for C6 at `time=500 ms` with the default deadline 500. -/
theorem C6_sentinel_overload_witness :
    parse_ping_time "time=500 ms" = some 500
    ∧ (update_stats [run_single_probe (.completed 0 "time=500 ms" "") 150 500] 150 500).lost
        = 1 := by
  refine ⟨by decide, (C6_sentinel_overload "time=500 ms" 150 500 (by decide)).2.2.1⟩

/-- Counterexample to C3 as stated: a zero-exit reply with no parsable
latency is classified Unparseable (neither Expired nor Failed) yet is
recorded as the sentinel, so the reported lost percentage (100) differs
from 100 times the Expired-or-Failed count over the completed count (0). -/
theorem C3_counterexample :
    classifyRaw (.completed 0 "reply from host" "") 150 = .unparseable
    ∧ expiredOrFailedCount [RawResult.completed 0 "reply from host" ""] 150 = 0
    ∧ (update_stats ([RawResult.completed 0 "reply from host" ""].map
        (fun r => run_single_probe r 150 500)) 150 500).pct_lost
      ≠ 100 * (expiredOrFailedCount [RawResult.completed 0 "reply from host" ""] 150 : ℚ)
          / (([RawResult.completed 0 "reply from host" ""].map
              (fun r => run_single_probe r 150 500)).length : ℚ) := by
  have hmap : [RawResult.completed 0 "reply from host" ""].map
      (fun r => run_single_probe r 150 500) = [(500 : ℚ)] := by decide
  have hcnt : expiredOrFailedCount [RawResult.completed 0 "reply from host" ""] 150 = 0 := by
    decide
  refine ⟨by decide, hcnt, ?_⟩
  rw [hmap, hcnt, update_stats_nonempty [(500 : ℚ)] 150 500 (by decide)]
  have h1 : (List.filter (fun x => decide (x = (500 : ℚ))) [(500 : ℚ)]).length = 1 := by decide
  show ((List.filter (fun x => decide (x = (500 : ℚ))) [(500 : ℚ)]).length : ℚ)
      / ([(500 : ℚ)].length : ℚ) * 100 ≠ _
  rw [h1]
  norm_num

/-- C3 amended: the reported lost percentage equals 100 times the number
of probes recorded at the `dead_timeout` sentinel divided by the number
of completed probes; every Expired, Failed or Unparseable probe records
the sentinel (so Unparseable counts as lost too, alongside any genuine
reply measured exactly at the sentinel). -/
theorem C3_lost_percentage (raws : List RawResult) (timeout dead : ℚ) (h : raws ≠ []) :
    (update_stats (raws.map (fun r => run_single_probe r timeout dead)) timeout dead).pct_lost
      = ((raws.filter (fun r => decide (run_single_probe r timeout dead = dead))).length : ℚ)
        / (raws.length : ℚ) * 100
    ∧ ∀ r ∈ raws,
        (classifyRaw r timeout = .expired ∨ classifyRaw r timeout = .failed
          ∨ classifyRaw r timeout = .unparseable) →
        run_single_probe r timeout dead = dead := by
  constructor
  · have hne : (raws.map (fun r => run_single_probe r timeout dead)).isEmpty = false := by
      cases raws with
      | nil => exact absurd rfl h
      | cons a as => rfl
    rw [update_stats_nonempty _ _ _ hne]
    show ((List.filter (fun x => decide (x = dead))
        (raws.map (fun r => run_single_probe r timeout dead))).length : ℚ)
        / ((raws.map (fun r => run_single_probe r timeout dead)).length : ℚ) * 100 = _
    rw [List.filter_map, List.length_map, List.length_map]
    rfl
  · intro r hr hcls
    cases r with
    | crashed msg => rfl
    | timedOut o e => rfl
    | completed rc out err =>
      by_cases hrc : rc = 0
      · subst hrc
        cases hp : parse_ping_time out with
        | none => simp [run_single_probe, hp]
        | some v =>
          exfalso
          rcases hcls with hc | hc | hc <;>
            · rw [show classifyRaw (.completed 0 out err) timeout
                  = (if v > timeout then .slow else .success) by
                    simp [classifyRaw, hp]] at hc
              by_cases hv : v > timeout <;> simp [hv] at hc
      · by_cases h124 : rc = 124 <;> simp [run_single_probe, hrc, h124]

/-- Witness for C3 amended on a one-probe trace. -/
theorem C3_lost_percentage_witness :
    ([RawResult.timedOut "" ""] : List RawResult) ≠ []
    ∧ (update_stats ([RawResult.timedOut "" ""].map
        (fun r => run_single_probe r 150 500)) 150 500).pct_lost
      = (([RawResult.timedOut "" ""].filter
          (fun r => decide (run_single_probe r 150 500 = 500))).length : ℚ)
        / (([RawResult.timedOut "" ""] : List RawResult).length : ℚ) * 100 := by
  refine ⟨by simp, (C3_lost_percentage [RawResult.timedOut "" ""] 150 500 (by simp)).1⟩

/-- Counterexample to C4 as stated: a reply parsed exactly at the
threshold (`time=150 ms`, threshold 150) is classified Success, yet
`update_stats` counts it in the Slow-or-worse percentage (100, not the 0
the claim predicts); conversely an Expired probe records the sentinel and
is excluded from that percentage (0, not 100). -/
theorem C4_counterexample :
    classifyRaw (.completed 0 "time=150 ms" "") 150 = .success
    ∧ run_single_probe (.completed 0 "time=150 ms" "") 150 500 = 150
    ∧ (update_stats [run_single_probe (.completed 0 "time=150 ms" "") 150 500] 150 500).pct_gt_timeout
        = 100
    ∧ (100 : ℚ) ≠ 0
    ∧ classifyRaw (.timedOut "" "") 150 = .expired
    ∧ (update_stats [run_single_probe (.timedOut "" "") 150 500] 150 500).pct_gt_timeout = 0 := by
  have hrun : run_single_probe (.completed 0 "time=150 ms" "") 150 500 = 150 := by decide
  refine ⟨by decide, hrun, ?_, by norm_num, by decide, ?_⟩
  · rw [hrun, update_stats_nonempty [(150 : ℚ)] 150 500 (by decide)]
    have h1 : (List.filter (fun x => decide ((150 : ℚ) ≤ x ∧ x ≠ 500)) [(150 : ℚ)]).length = 1 := by
      decide
    show ((List.filter (fun x => decide ((150 : ℚ) ≤ x ∧ x ≠ 500)) [(150 : ℚ)]).length : ℚ)
        / ([(150 : ℚ)].length : ℚ) * 100 = 100
    rw [h1]
    norm_num
  · have hrun2 : run_single_probe (.timedOut "" "") 150 500 = 500 := rfl
    rw [hrun2, update_stats_nonempty [(500 : ℚ)] 150 500 (by decide)]
    have h1 : (List.filter (fun x => decide ((150 : ℚ) ≤ x ∧ x ≠ 500)) [(500 : ℚ)]).length = 0 := by
      decide
    show ((List.filter (fun x => decide ((150 : ℚ) ≤ x ∧ x ≠ 500)) [(500 : ℚ)]).length : ℚ)
        / ([(500 : ℚ)].length : ℚ) * 100 = 0
    rw [h1]
    norm_num

/-- C4 amended: a completed reply parsed at exactly the threshold is
classified Success (the Slow flag requires a strictly greater latency),
but the snapshot Slow-or-worse percentage counts every completed time
that is at least the threshold and different from the `dead_timeout`
sentinel — so threshold-equal replies are included and Expired/Failed
sentinel outcomes are excluded from this percentage. -/
theorem C4_slow_threshold (l : List ℚ) (t d : ℚ) (h : l ≠ [])
    (out err : String) (v timeout : ℚ) (hv : parse_ping_time out = some v)
    (hle : v ≤ timeout) :
    classifyRaw (.completed 0 out err) timeout = .success
    ∧ (update_stats l t d).gt_timeout
        = (l.filter (fun x => decide (t ≤ x ∧ x ≠ d))).length
    ∧ (update_stats l t d).pct_gt_timeout
        = ((l.filter (fun x => decide (t ≤ x ∧ x ≠ d))).length : ℚ) / (l.length : ℚ) * 100 := by
  have hne : l.isEmpty = false := by
    cases l with
    | nil => exact absurd rfl h
    | cons a as => rfl
  rw [update_stats_nonempty l t d hne]
  refine ⟨?_, rfl, rfl⟩
  simp [classifyRaw, hv, not_lt.mpr hle]

/-- Witness for C4 amended at threshold 150 with the reply `time=150 ms`. -/
theorem C4_slow_threshold_witness :
    parse_ping_time "time=150 ms" = some 150
    ∧ (150 : ℚ) ≤ 150
    ∧ classifyRaw (.completed 0 "time=150 ms" "") 150 = .success
    ∧ (update_stats [(150 : ℚ)] 150 500).gt_timeout
        = (List.filter (fun x => decide ((150 : ℚ) ≤ x ∧ x ≠ 500)) [(150 : ℚ)]).length := by
  have hc := C4_slow_threshold [(150 : ℚ)] 150 500 (by simp) "time=150 ms" "" 150 150
    (by decide) le_rfl
  exact ⟨by decide, le_rfl, hc.1, hc.2.1⟩
